import Mathlib

/-!
Verification of the migration orchestration protocol in
`src/commands/migrate.ts` (`_migrate` and `migrate`).

The orchestrator is embedded shallowly: each external collaborator
(ledger, action executor, migration runner, settings parser) is injected
as an `Except`-returning function in an `Env`, and a run is modelled as a
value of `TraceM Unit = List Event × Except Err Unit`: the ordered list of
collaborator invocations the run performs, together with its outcome.
Trace order models the strictly sequential (awaited) execution order of
the source.
-/

set_option maxHeartbeats 1000000

/-- An opaque migration descriptor (the core never inspects it; see the
spec's MigrationDescriptor). -/
structure Migration where
  id : Nat
  deriving DecidableEq, Repr

/-- An opaque hook action, as configured in the before/after lists. -/
structure ActionSpec where
  name : String
  deriving DecidableEq, Repr

/-- Errors a run can surface: a plain thrown Error with a message (the
orchestrator's own configuration error), a ledger error, a hook action
error, or a runner error carrying the failing migration's identity. -/
inductive Err where
  | message (msg : String)
  | ledgerError (msg : String)
  | hookError (msg : String)
  | runnerError (id : Nat)
  deriving DecidableEq, Repr

/-- Modelled from the spec: the slice of `ParsedSettings` (src/settings.ts
is not among the sources) that `_migrate` consumes — the two connection
strings (absent = `none`, and the empty string is also falsy in the
source's truthiness test) and the two hook action lists. The logger is
modelled as a trace event rather than a field. -/
structure ParsedSettings where
  connectionString : Option String
  shadowConnectionString : Option String
  beforeAllMigrations : List ActionSpec
  afterAllMigrations : List ActionSpec
  deriving DecidableEq, Repr

/-- Modelled from the spec: raw, unparsed settings (src/settings.ts is not
among the sources); opaque to the orchestrator, only handed to
`parseSettings`. -/
structure Settings where
  id : Nat
  deriving DecidableEq, Repr

/-- One observable collaborator invocation of a run, in execution order. -/
inductive Event where
  | acquireClient (connectionString : String)
  | releaseClient
  | acquireLock
  | releaseLock
  | getLastMigration
  | getMigrationsAfter
  | executeActions (shadow : Bool) (actions : List ActionSpec)
  | runMigration (m : Migration) (logSuffix : String)
  | logInfo (msg : String)
  deriving DecidableEq, Repr

/-- True on `executeActions` events. -/
def Event.isExec : Event → Bool
  | Event.executeActions _ _ => true
  | _ => false

/-- True on `runMigration` events. -/
def Event.isRun : Event → Bool
  | Event.runMigration _ _ => true
  | _ => false

/-- True on `logger.info` events. -/
def Event.isLog : Event → Bool
  | Event.logInfo _ => true
  | _ => false

/-- True on the migration-work events (ledger reads, hook phases,
migration applications, the status log) — everything the source performs
inside the advisory-lock body. -/
def Event.isWork : Event → Bool
  | Event.getLastMigration => true
  | Event.getMigrationsAfter => true
  | Event.executeActions _ _ => true
  | Event.runMigration _ _ => true
  | Event.logInfo _ => true
  | _ => false

/-- Modelled from the spec: the external collaborators of the orchestrator
(src/migration.ts, src/actions.ts and src/settings.ts are not among the
sources). Each is injected as a function returning `Except Err`, exactly
the success-or-fatal-error interface the spec gives them. -/
structure Env where
  getLastMigration : Except Err (Option Migration)
  getMigrationsAfter : Option Migration → Except Err (List Migration)
  executeActions : Bool → List ActionSpec → Except Err Unit
  runCommittedMigration : Migration → Except Err Unit
  parseSettings : Settings → Bool → Except Err ParsedSettings

/-- A run fragment: the invocations it performs, and its outcome. -/
def TraceM (α : Type) : Type := List Event × Except Err α

/-- The fragment that performs nothing and returns a value. -/
def TraceM.pure {α : Type} (x : α) : TraceM α := ([], Except.ok x)

/-- Sequencing of run fragments: on failure of the first, the second never
runs (its invocations do not happen) and the error propagates. -/
def TraceM.bind {α β : Type} (a : TraceM α) (f : α → TraceM β) : TraceM β :=
  match a with
  | (tr, Except.error e) => (tr, Except.error e)
  | (tr, Except.ok x) => (tr ++ (f x).1, (f x).2)

/-- Boolean success test on a `Unit` outcome. -/
def resultOk : Except Err Unit → Bool
  | Except.ok _ => true
  | Except.error _ => false

/-- JavaScript truthiness of the selected connection string:
`!connectionString` is true when the value is absent or the empty
string. -/
def falsy : Option String → Bool
  | none => true
  | some s => s.isEmpty

/-- The status line of the run, mirroring the template literal in the
source: the `graphile-migrate` tag plus the log suffix, then one of the
three case texts. -/
def statusMessage (logSuffix : String) (remainingCount : Nat)
    (lastMigration : Option Migration) : String :=
  let body :=
    if remainingCount > 0 then
      s!"{remainingCount} committed migrations executed"
    else
      match lastMigration with
      | some _ => "Already up to date"
      | none => "Up to date — no committed migrations to run"
  s!"graphile-migrate{logSuffix}: {body}"

/-- Modelled from the spec: `withClient(connectionString, settings, body)`
(src/pg.ts is not among the sources) — scoped acquisition of a session
bound to the connection string, released on every exit path, propagating
the body's outcome. -/
def withClient (connectionString : String) (body : TraceM Unit) :
    TraceM Unit :=
  (Event.acquireClient connectionString :: body.1 ++ [Event.releaseClient],
   body.2)

/-- Modelled from the spec: `withAdvisoryLock(pgClient, body)`
(src/pgReal.ts is not among the sources) — acquires the advisory lock
before running the body and releases it on every exit path, propagating
the body's outcome. -/
def withAdvisoryLock (body : TraceM Unit) : TraceM Unit :=
  (Event.acquireLock :: body.1 ++ [Event.releaseLock], body.2)

/-- One `executeActions(parsedSettings, shadow, actions)` invocation. -/
def callExecuteActions (env : Env) (shadow : Bool) (actions : List ActionSpec) :
    TraceM Unit :=
  ([Event.executeActions shadow actions], env.executeActions shadow actions)

/-- The source's `for (const migration of remainingMigrations)` loop:
`runCommittedMigration` in series, stopping at the first failure. -/
def runMigrations (env : Env) (logSuffix : String) :
    List Migration → TraceM Unit
  | [] => TraceM.pure ()
  | m :: rest =>
      TraceM.bind
        ([Event.runMigration m logSuffix], env.runCommittedMigration m)
        (fun _ => runMigrations env logSuffix rest)

/-- The body `_migrate` passes to `withAdvisoryLock`: ledger reads, the
gated before phase, the migration loop, the gated after phase, and the
status line. -/
def migrationBody (env : Env) (parsedSettings : ParsedSettings)
    (shadow forceActions : Bool) (logSuffix : String) : TraceM Unit :=
  TraceM.bind ([Event.getLastMigration], env.getLastMigration)
    (fun lastMigration =>
  TraceM.bind ([Event.getMigrationsAfter],
      env.getMigrationsAfter lastMigration)
    (fun remainingMigrations =>
  TraceM.bind
    (if decide (remainingMigrations.length > 0) || forceActions then
      callExecuteActions env shadow parsedSettings.beforeAllMigrations
     else TraceM.pure ())
    (fun _ =>
  TraceM.bind (runMigrations env logSuffix remainingMigrations)
    (fun _ =>
  TraceM.bind
    (if decide (remainingMigrations.length > 0) || forceActions then
      callExecuteActions env shadow parsedSettings.afterAllMigrations
     else TraceM.pure ())
    (fun _ =>
  ([Event.logInfo
      (statusMessage logSuffix remainingMigrations.length lastMigration)],
   Except.ok ()))))))

/-- The orchestrator `_migrate(parsedSettings, shadow, forceActions)`:
select the connection string by target, fail fast when it is falsy,
otherwise run the migration body under the client scope and the advisory
lock. -/
def _migrate (env : Env) (parsedSettings : ParsedSettings)
    (shadow : Bool := false) (forceActions : Bool := false) : TraceM Unit :=
  let connectionString :=
    if shadow then parsedSettings.shadowConnectionString
    else parsedSettings.connectionString
  if falsy connectionString then
    ([], Except.error (Err.message "Could not determine connection string"))
  else
    let logSuffix := if shadow then "[shadow]" else ""
    withClient (connectionString.getD "")
      (withAdvisoryLock
        (migrationBody env parsedSettings shadow forceActions logSuffix))

/-- The public entry point `migrate(settings, shadow, forceActions)`:
parse the settings for the chosen target, then hand off to `_migrate`. -/
def migrate (env : Env) (settings : Settings) (shadow : Bool := false)
    (forceActions : Bool := false) : TraceM Unit :=
  match env.parseSettings settings shadow with
  | Except.error e => ([], Except.error e)
  | Except.ok parsedSettings => _migrate env parsedSettings shadow forceActions

/-! Concrete fixtures used to exercise the definitions. -/

/-- A first migration. -/
def mA : Migration := ⟨1⟩

/-- A second migration. -/
def mB : Migration := ⟨2⟩

/-- The single configured before-phase action. -/
def aBefore : ActionSpec := ⟨"before"⟩

/-- The single configured after-phase action. -/
def aAfter : ActionSpec := ⟨"after"⟩

/-- Settings with both connection strings present and one action in each
hook phase. -/
def ps0 : ParsedSettings :=
  ⟨some "postgres://db", some "postgres://shadow", [aBefore], [aAfter]⟩

/-- Settings with no production connection string and an empty (falsy)
shadow connection string. -/
def psNoCs : ParsedSettings := ⟨none, some "", [], []⟩

/-- An opaque raw settings value. -/
def s0 : Settings := ⟨0⟩

/-- An environment in which every collaborator succeeds: fresh target,
two pending migrations. -/
def envOk : Env where
  getLastMigration := Except.ok none
  getMigrationsAfter := fun _ => Except.ok [mA, mB]
  executeActions := fun _ _ => Except.ok ()
  runCommittedMigration := fun _ => Except.ok ()
  parseSettings := fun _ _ => Except.ok ps0

/-- An up-to-date environment: a last migration exists and nothing is
pending. -/
def envEmpty : Env :=
  { envOk with
    getLastMigration := Except.ok (some mB)
    getMigrationsAfter := fun _ => Except.ok [] }

/-- An environment whose before-phase action list fails. -/
def envBeforeFail : Env :=
  { envOk with
    executeActions := fun _ acts =>
      if acts = [aBefore] then Except.error (Err.hookError "hook failed")
      else Except.ok () }

/-- An environment in which the second migration fails to apply. -/
def envRunFail : Env :=
  { envOk with
    runCommittedMigration := fun m =>
      if m = mB then Except.error (Err.runnerError m.id) else Except.ok () }

/-- An environment whose ledger read fails. -/
def envLedgerFail : Env :=
  { envOk with
    getLastMigration := Except.error (Err.ledgerError "not bootstrapped") }

/-! Helper lemmas about the trace monad and the migration loop. -/

/-- Sequencing after a failed fragment keeps its trace and error. -/
theorem TraceM.bind_error {α β : Type} (tr : List Event) (e : Err)
    (f : α → TraceM β) :
    TraceM.bind (tr, Except.error e) f = (tr, Except.error e) := rfl

/-- Sequencing after a successful fragment appends the continuation. -/
theorem TraceM.bind_ok {α β : Type} (tr : List Event) (x : α)
    (f : α → TraceM β) :
    TraceM.bind (tr, Except.ok x) f = (tr ++ (f x).1, (f x).2) := rfl

/-- An event of a sequenced fragment comes from one of its parts. -/
theorem TraceM.mem_bind {α β : Type} (a : TraceM α) (f : α → TraceM β)
    (e : Event) (h : e ∈ (TraceM.bind a f).1) :
    e ∈ a.1 ∨ ∃ x, e ∈ (f x).1 := by
  rcases a with ⟨tr, r⟩
  cases r with
  | error err => exact Or.inl h
  | ok x =>
      rw [TraceM.bind_ok] at h
      rcases List.mem_append.mp h with h' | h'
      · exact Or.inl h'
      · exact Or.inr ⟨x, h'⟩

/-- When every migration in the list applies cleanly, the loop invokes the
runner once per migration, in list order, and succeeds. -/
theorem runMigrations_ok (env : Env) (ls : String) (ms : List Migration)
    (h : ∀ m ∈ ms, env.runCommittedMigration m = Except.ok ()) :
    runMigrations env ls ms =
      (ms.map (fun m => Event.runMigration m ls), Except.ok ()) := by
  induction ms with
  | nil => rfl
  | cons m rest ih =>
      have hm : env.runCommittedMigration m = Except.ok () :=
        h m (List.mem_cons_self m rest)
      have hrest : ∀ x ∈ rest, env.runCommittedMigration x = Except.ok () :=
        fun x hx => h x (List.mem_cons_of_mem m hx)
      simp [runMigrations, hm, TraceM.bind_ok, ih hrest]

/-- When the migrations up to a failing one apply cleanly and that one
fails, the loop invokes the runner exactly for the clean prefix plus the
failing migration, in order, then stops with the runner's error. -/
theorem runMigrations_error (env : Env) (ls : String)
    (pre post : List Migration) (m : Migration) (e : Err)
    (hpre : ∀ x ∈ pre, env.runCommittedMigration x = Except.ok ())
    (hm : env.runCommittedMigration m = Except.error e) :
    runMigrations env ls (pre ++ m :: post) =
      ((pre ++ [m]).map (fun x => Event.runMigration x ls),
       Except.error e) := by
  induction pre with
  | nil => simp [runMigrations, hm, TraceM.bind_error]
  | cons x rest ih =>
      have hx : env.runCommittedMigration x = Except.ok () :=
        hpre x (List.mem_cons_self x rest)
      have hrest : ∀ y ∈ rest, env.runCommittedMigration y = Except.ok () :=
        fun y hy => hpre y (List.mem_cons_of_mem x hy)
      simp [runMigrations, hx, TraceM.bind_ok, ih hrest]

/-- Every event the migration loop emits is a runner invocation. -/
theorem runMigrations_events (env : Env) (ls : String) (ms : List Migration)
    (e : Event) (h : e ∈ (runMigrations env ls ms).1) :
    Event.isRun e = true := by
  induction ms with
  | nil => simp [runMigrations, TraceM.pure] at h
  | cons m rest ih =>
      rcases TraceM.mem_bind _ _ _ h with h' | ⟨x, h'⟩
      · simp at h'
        simp [h', Event.isRun]
      · exact ih h'

/-- Either every migration of a list applies cleanly, or the list splits
at a first failing migration preceded by a clean prefix. -/
theorem all_ok_or_split (env : Env) (l : List Migration) :
    (∀ m ∈ l, env.runCommittedMigration m = Except.ok ()) ∨
    ∃ pre m post e, l = pre ++ m :: post ∧
      (∀ x ∈ pre, env.runCommittedMigration x = Except.ok ()) ∧
      env.runCommittedMigration m = Except.error e := by
  induction l with
  | nil => exact Or.inl (by intro m hm; simp at hm)
  | cons a t ih =>
      cases ha : env.runCommittedMigration a with
      | error e =>
          exact Or.inr ⟨[], a, t, e, rfl, by intro x hx; simp at hx, ha⟩
      | ok u =>
          cases u
          rcases ih with hall | ⟨pre, m, post, e, heq, hpre, hm⟩
          · refine Or.inl ?_
            intro m hm
            rcases List.mem_cons.mp hm with rfl | hmem
            · exact ha
            · exact hall m hmem
          · refine Or.inr ⟨a :: pre, m, post, e, by rw [heq]; rfl, ?_, hm⟩
            intro x hx
            rcases List.mem_cons.mp hx with rfl | hmem
            · exact ha
            · exact hpre x hmem

/-- Taking one element past a clean prefix of a split list yields the
prefix plus the split element. -/
theorem take_append_cons (pre post : List Migration) (m : Migration) :
    (pre ++ m :: post).take (pre.length + 1) = pre ++ [m] := by
  induction pre with
  | nil => simp
  | cons x rest ih => simp [ih]

/-- A `Unit` outcome passes `resultOk` exactly when it is `ok ()`. -/
theorem resultOk_iff (r : Except Err Unit) :
    resultOk r = true ↔ r = Except.ok () := by
  cases r with
  | ok u => cases u; simp [resultOk]
  | error e => simp [resultOk]

/-- A batch passes the `all`-runner test exactly when every migration in
it applies cleanly. -/
theorem all_resultOk (env : Env) (batch : List Migration) :
    (batch.all fun m => resultOk (env.runCommittedMigration m)) = true ↔
    ∀ m ∈ batch, env.runCommittedMigration m = Except.ok () := by
  rw [List.all_eq_true]
  constructor <;> intro h m hm
  · exact (resultOk_iff _).mp (h m hm)
  · exact (resultOk_iff _).mpr (h m hm)

/-- When the selected connection string is present and non-empty, a run is
the client scope around the lock scope around the migration body. -/
theorem migrate_not_falsy (env : Env) (ps : ParsedSettings) (sh f : Bool)
    (cs : String)
    (hsel : (if sh then ps.shadowConnectionString else ps.connectionString) =
      some cs)
    (hcs : cs.isEmpty = false) :
    _migrate env ps sh f =
      ([Event.acquireClient cs, Event.acquireLock]
         ++ (migrationBody env ps sh f (if sh then "[shadow]" else "")).1
         ++ [Event.releaseLock, Event.releaseClient],
       (migrationBody env ps sh f (if sh then "[shadow]" else "")).2) := by
  simp [_migrate, hsel, falsy, hcs, withClient, withAdvisoryLock]

/-- A failing `getLastMigration` ends the lock body at once. -/
theorem body_getLast_error (env : Env) (ps : ParsedSettings) (sh f : Bool)
    (ls : String) (e : Err) (h : env.getLastMigration = Except.error e) :
    migrationBody env ps sh f ls =
      ([Event.getLastMigration], Except.error e) := by
  simp [migrationBody, h, TraceM.bind_error]

/-- A failing `getMigrationsAfter` ends the lock body after the two ledger
reads. -/
theorem body_getAfter_error (env : Env) (ps : ParsedSettings) (sh f : Bool)
    (ls : String) (last : Option Migration) (e : Err)
    (h1 : env.getLastMigration = Except.ok last)
    (h2 : env.getMigrationsAfter last = Except.error e) :
    migrationBody env ps sh f ls =
      ([Event.getLastMigration, Event.getMigrationsAfter],
       Except.error e) := by
  simp [migrationBody, h1, h2, TraceM.bind_ok, TraceM.bind_error]

/-- With the action gate open, a failing before phase ends the lock body
right after the before-phase invocation. -/
theorem body_before_error (env : Env) (ps : ParsedSettings) (sh f : Bool)
    (ls : String) (last : Option Migration) (batch : List Migration) (e : Err)
    (h1 : env.getLastMigration = Except.ok last)
    (h2 : env.getMigrationsAfter last = Except.ok batch)
    (hg : (decide (batch.length > 0) || f) = true)
    (hb : env.executeActions sh ps.beforeAllMigrations = Except.error e) :
    migrationBody env ps sh f ls =
      ([Event.getLastMigration, Event.getMigrationsAfter,
        Event.executeActions sh ps.beforeAllMigrations],
       Except.error e) := by
  have hg2 : 0 < batch.length ∨ f = true := by simpa using hg
  simp [migrationBody, h1, h2, hg2, callExecuteActions, hb,
    TraceM.bind_ok, TraceM.bind_error]

/-- With a clean before phase, a batch whose migration `m` fails after a
clean prefix ends the lock body mid-loop: the runner is invoked for the
prefix and for `m` only, and the after phase and the status line never
happen. -/
theorem body_run_error (env : Env) (ps : ParsedSettings) (sh f : Bool)
    (ls : String) (last : Option Migration) (pre post : List Migration)
    (m : Migration) (e : Err)
    (h1 : env.getLastMigration = Except.ok last)
    (h2 : env.getMigrationsAfter last = Except.ok (pre ++ m :: post))
    (hb : env.executeActions sh ps.beforeAllMigrations = Except.ok ())
    (hpre : ∀ x ∈ pre, env.runCommittedMigration x = Except.ok ())
    (hm : env.runCommittedMigration m = Except.error e) :
    migrationBody env ps sh f ls =
      ([Event.getLastMigration, Event.getMigrationsAfter,
        Event.executeActions sh ps.beforeAllMigrations]
         ++ (pre ++ [m]).map (fun x => Event.runMigration x ls),
       Except.error e) := by
  have hg : (decide ((pre ++ m :: post).length > 0) || f) = true := by simp
  have hrun := runMigrations_error env ls pre post m e hpre hm
  simp [migrationBody, h1, h2, hg, callExecuteActions, hb, hrun,
    TraceM.bind_ok, TraceM.bind_error]

/-- With the gate open, clean before phase and clean batch, a failing
after phase ends the lock body right after the after-phase invocation: no
status line is logged. -/
theorem body_after_error (env : Env) (ps : ParsedSettings) (sh f : Bool)
    (ls : String) (last : Option Migration) (batch : List Migration) (e : Err)
    (h1 : env.getLastMigration = Except.ok last)
    (h2 : env.getMigrationsAfter last = Except.ok batch)
    (hg : (decide (batch.length > 0) || f) = true)
    (hb : env.executeActions sh ps.beforeAllMigrations = Except.ok ())
    (hruns : ∀ m ∈ batch, env.runCommittedMigration m = Except.ok ())
    (ha : env.executeActions sh ps.afterAllMigrations = Except.error e) :
    migrationBody env ps sh f ls =
      ([Event.getLastMigration, Event.getMigrationsAfter,
        Event.executeActions sh ps.beforeAllMigrations]
         ++ batch.map (fun x => Event.runMigration x ls)
         ++ [Event.executeActions sh ps.afterAllMigrations],
       Except.error e) := by
  have hg2 : 0 < batch.length ∨ f = true := by simpa using hg
  have hrun := runMigrations_ok env ls batch hruns
  simp [migrationBody, h1, h2, hg2, callExecuteActions, hb, hrun, ha,
    TraceM.bind_ok, TraceM.bind_error]

/-- With the gate open and every collaborator succeeding, the lock body
performs the two ledger reads, the before phase, the whole batch in
order, the after phase, and the status line. -/
theorem body_ok (env : Env) (ps : ParsedSettings) (sh f : Bool)
    (ls : String) (last : Option Migration) (batch : List Migration)
    (h1 : env.getLastMigration = Except.ok last)
    (h2 : env.getMigrationsAfter last = Except.ok batch)
    (hg : (decide (batch.length > 0) || f) = true)
    (hb : env.executeActions sh ps.beforeAllMigrations = Except.ok ())
    (hruns : ∀ m ∈ batch, env.runCommittedMigration m = Except.ok ())
    (ha : env.executeActions sh ps.afterAllMigrations = Except.ok ()) :
    migrationBody env ps sh f ls =
      ([Event.getLastMigration, Event.getMigrationsAfter,
        Event.executeActions sh ps.beforeAllMigrations]
         ++ batch.map (fun x => Event.runMigration x ls)
         ++ [Event.executeActions sh ps.afterAllMigrations,
             Event.logInfo (statusMessage ls batch.length last)],
       Except.ok ()) := by
  have hg2 : 0 < batch.length ∨ f = true := by simpa using hg
  have hrun := runMigrations_ok env ls batch hruns
  simp [migrationBody, h1, h2, hg2, callExecuteActions, hb, hrun, ha,
    TraceM.bind_ok, TraceM.bind_error]

/-- With an empty batch and no force flag, the lock body performs only the
two ledger reads and the status line: no hooks, no migrations. -/
theorem body_gate_off (env : Env) (ps : ParsedSettings) (sh : Bool)
    (ls : String) (last : Option Migration)
    (h1 : env.getLastMigration = Except.ok last)
    (h2 : env.getMigrationsAfter last = Except.ok []) :
    migrationBody env ps sh false ls =
      ([Event.getLastMigration, Event.getMigrationsAfter,
        Event.logInfo (statusMessage ls 0 last)],
       Except.ok ()) := by
  simp [migrationBody, h1, h2, runMigrations, TraceM.pure,
    TraceM.bind_ok, TraceM.bind_error]

/-- Every event the lock body emits is migration work: a ledger read, a
hook phase, a runner invocation, or the status line. -/
theorem body_events (env : Env) (ps : ParsedSettings) (sh f : Bool)
    (ls : String) (e : Event)
    (h : e ∈ (migrationBody env ps sh f ls).1) : Event.isWork e = true := by
  unfold migrationBody at h
  rcases TraceM.mem_bind _ _ _ h with h1 | ⟨last, h1⟩
  · simp at h1
    simp [h1, Event.isWork]
  · rcases TraceM.mem_bind _ _ _ h1 with h2 | ⟨batch, h2⟩
    · simp at h2
      simp [h2, Event.isWork]
    · rcases TraceM.mem_bind _ _ _ h2 with h3 | ⟨u, h3⟩
      · split at h3
        · simp [callExecuteActions] at h3
          simp [h3, Event.isWork]
        · simp [TraceM.pure] at h3
      · rcases TraceM.mem_bind _ _ _ h3 with h4 | ⟨v, h4⟩
        · have := runMigrations_events env ls batch e h4
          cases e <;> simp_all [Event.isRun, Event.isWork]
        · rcases TraceM.mem_bind _ _ _ h4 with h5 | ⟨w, h5⟩
          · split at h5
            · simp [callExecuteActions] at h5
              simp [h5, Event.isWork]
            · simp [TraceM.pure] at h5
          · simp at h5
            simp [h5, Event.isWork]

/-- Stringification of a string is the string itself. -/
theorem string_toString (s : String) : toString s = s := rfl

/-- The status line spelled out: the `graphile-migrate` tag, the log
suffix, and one of the three case texts chosen by the batch size and the
presence of a last migration. -/
theorem statusMessage_eq (ls : String) (n : Nat) (last : Option Migration) :
    statusMessage ls n last =
      ("graphile-migrate" ++ ls ++ ": ") ++
      (if n > 0 then toString n ++ " committed migrations executed"
       else if last.isSome then "Already up to date"
       else "Up to date — no committed migrations to run") := by
  unfold statusMessage
  cases last <;> by_cases h : n > 0 <;>
    simp [h, Option.isSome, string_toString, String.append_assoc]

/-- C5: `_migrate` selects `shadowConnectionString` when `shadow` is true
and `connectionString` otherwise; when the selected value is falsy
(absent or empty) the run fails at once with the configuration error,
performing no connection, lock, ledger, hook or migration event at all
(its trace is empty); when the selected value is a non-empty string, the
client session is acquired with exactly that string, as the run's very
first event. -/
theorem connection_string_selection (env : Env) (ps : ParsedSettings)
    (sh f : Bool) :
    (falsy (if sh then ps.shadowConnectionString else ps.connectionString) =
        true →
      _migrate env ps sh f =
        ([],
         Except.error (Err.message "Could not determine connection string")))
    ∧ (∀ cs,
        (if sh then ps.shadowConnectionString else ps.connectionString) =
          some cs →
        cs.isEmpty = false →
        (_migrate env ps sh f).1.head? = some (Event.acquireClient cs)) := by
  constructor
  · intro h
    simp [_migrate, h]
  · intro cs hsel hcs
    rw [migrate_not_falsy env ps sh f cs hsel hcs]
    rfl

/-- Witness for C5: with no production connection string configured the
run aborts with the configuration error and an empty trace, and with the
shadow flag set the run acquires the shadow connection string first. -/
theorem connection_string_selection_witness :
    _migrate envOk psNoCs false false =
      ([], Except.error (Err.message "Could not determine connection string"))
    ∧ (_migrate envOk ps0 true false).1.head? =
        some (Event.acquireClient "postgres://shadow") :=
  ⟨(connection_string_selection envOk psNoCs false false).1 rfl,
   (connection_string_selection envOk ps0 true false).2 "postgres://shadow"
     rfl rfl⟩

/-- C2: when the action gate is open and the before-phase
`executeActions` call fails, no migration from the batch is applied (the
run has no runner event), the after phase is never invoked (the run's
only `executeActions` event is the before-phase one), and the hook error
propagates out of `_migrate`. -/
theorem before_failure_aborts (env : Env) (ps : ParsedSettings)
    (sh f : Bool) (cs : String) (last : Option Migration)
    (batch : List Migration) (e : Err)
    (hsel : (if sh then ps.shadowConnectionString else ps.connectionString) =
      some cs)
    (hcs : cs.isEmpty = false)
    (h1 : env.getLastMigration = Except.ok last)
    (h2 : env.getMigrationsAfter last = Except.ok batch)
    (hg : (decide (batch.length > 0) || f) = true)
    (hb : env.executeActions sh ps.beforeAllMigrations = Except.error e) :
    (_migrate env ps sh f).1.filter Event.isRun = []
    ∧ (_migrate env ps sh f).1.filter Event.isExec =
        [Event.executeActions sh ps.beforeAllMigrations]
    ∧ (_migrate env ps sh f).2 = Except.error e := by
  rw [migrate_not_falsy env ps sh f cs hsel hcs,
    body_before_error env ps sh f _ last batch e h1 h2 hg hb]
  refine ⟨?_, ?_, rfl⟩ <;> simp [Event.isRun, Event.isExec]

/-- Witness for C2: a failing before-phase hook on a two-migration batch
applies nothing, never reaches the after phase, and surfaces the hook
error. -/
theorem before_failure_aborts_witness :
    (_migrate envBeforeFail ps0 false false).1.filter Event.isRun = []
    ∧ (_migrate envBeforeFail ps0 false false).1.filter Event.isExec =
        [Event.executeActions false [aBefore]]
    ∧ (_migrate envBeforeFail ps0 false false).2 =
        Except.error (Err.hookError "hook failed") :=
  before_failure_aborts envBeforeFail ps0 false false "postgres://db" none
    [mA, mB] (Err.hookError "hook failed") rfl rfl rfl rfl (by decide)
    (by rfl)

/-- C9: when a ledger read fails — `getLastMigration` itself, or
`getMigrationsAfter` after a successful `getLastMigration` — the run
makes no `executeActions` call and no `runCommittedMigration` call, and
aborts with the ledger's error. -/
theorem ledger_failure_aborts (env : Env) (ps : ParsedSettings)
    (sh f : Bool) (cs : String) (e : Err)
    (hsel : (if sh then ps.shadowConnectionString else ps.connectionString) =
      some cs)
    (hcs : cs.isEmpty = false)
    (hledger : env.getLastMigration = Except.error e ∨
      ∃ last, env.getLastMigration = Except.ok last ∧
        env.getMigrationsAfter last = Except.error e) :
    (_migrate env ps sh f).1.filter Event.isExec = []
    ∧ (_migrate env ps sh f).1.filter Event.isRun = []
    ∧ (_migrate env ps sh f).2 = Except.error e := by
  rw [migrate_not_falsy env ps sh f cs hsel hcs]
  rcases hledger with h | ⟨last, h1, h2⟩
  · rw [body_getLast_error env ps sh f _ e h]
    refine ⟨?_, ?_, rfl⟩ <;> simp [Event.isExec, Event.isRun]
  · rw [body_getAfter_error env ps sh f _ last e h1 h2]
    refine ⟨?_, ?_, rfl⟩ <;> simp [Event.isExec, Event.isRun]

/-- Witness for C9: a failing `getLastMigration` aborts the run with the
ledger error, with no hook and no migration work performed. -/
theorem ledger_failure_aborts_witness :
    (_migrate envLedgerFail ps0 false false).1.filter Event.isExec = []
    ∧ (_migrate envLedgerFail ps0 false false).1.filter Event.isRun = []
    ∧ (_migrate envLedgerFail ps0 false false).2 =
        Except.error (Err.ledgerError "not bootstrapped") :=
  ledger_failure_aborts envLedgerFail ps0 false false "postgres://db"
    (Err.ledgerError "not bootstrapped") rfl rfl (Or.inl rfl)

/-- Filtering runner events out of a list of runner events keeps it
whole. -/
theorem filter_isRun_map (ls : String) (l : List Migration) :
    (l.map (fun x => Event.runMigration x ls)).filter Event.isRun =
      l.map (fun x => Event.runMigration x ls) := by
  induction l with
  | nil => rfl
  | cons a t ih => simp [Event.isRun, ih]

/-- A list of runner events holds no `executeActions` event. -/
theorem filter_isExec_map (ls : String) (l : List Migration) :
    (l.map (fun x => Event.runMigration x ls)).filter Event.isExec = [] := by
  induction l with
  | nil => rfl
  | cons a t ih => simp [Event.isExec, ih]

/-- A list of runner events holds no log event. -/
theorem filter_isLog_map (ls : String) (l : List Migration) :
    (l.map (fun x => Event.runMigration x ls)).filter Event.isLog = [] := by
  induction l with
  | nil => rfl
  | cons a t ih => simp [Event.isLog, ih]

/-- C3: when the batch splits as a clean prefix, a failing migration and
a remainder, the runner is invoked exactly for the clean prefix plus the
failing migration, in batch order; the remainder is never attempted, the
after phase is never invoked (the run's only `executeActions` event is
the before-phase one), no status line is logged, and the runner's error —
the one it produced for the failing migration — surfaces from
`_migrate`. -/
theorem runner_failure_aborts (env : Env) (ps : ParsedSettings)
    (sh f : Bool) (cs : String) (last : Option Migration)
    (pre post : List Migration) (m : Migration) (e : Err)
    (hsel : (if sh then ps.shadowConnectionString else ps.connectionString) =
      some cs)
    (hcs : cs.isEmpty = false)
    (h1 : env.getLastMigration = Except.ok last)
    (h2 : env.getMigrationsAfter last = Except.ok (pre ++ m :: post))
    (hb : env.executeActions sh ps.beforeAllMigrations = Except.ok ())
    (hpre : ∀ x ∈ pre, env.runCommittedMigration x = Except.ok ())
    (hm : env.runCommittedMigration m = Except.error e) :
    (_migrate env ps sh f).1.filter Event.isRun =
      (pre ++ [m]).map
        (fun x => Event.runMigration x (if sh then "[shadow]" else ""))
    ∧ (_migrate env ps sh f).1.filter Event.isExec =
        [Event.executeActions sh ps.beforeAllMigrations]
    ∧ (_migrate env ps sh f).1.filter Event.isLog = []
    ∧ (_migrate env ps sh f).2 = Except.error e := by
  rw [migrate_not_falsy env ps sh f cs hsel hcs,
    body_run_error env ps sh f _ last pre post m e h1 h2 hb hpre hm]
  refine ⟨?_, ?_, ?_, rfl⟩ <;>
    simp [Event.isRun, Event.isExec, Event.isLog, List.filter_append,
      filter_isRun_map, filter_isExec_map, filter_isLog_map]

/-- Witness for C3: with the second of two migrations failing, the runner
is invoked for both in order, the after phase and the status line never
happen, and the error identifying migration 2 surfaces. -/
theorem runner_failure_aborts_witness :
    (_migrate envRunFail ps0 false false).1.filter Event.isRun =
      [Event.runMigration mA "", Event.runMigration mB ""]
    ∧ (_migrate envRunFail ps0 false false).1.filter Event.isExec =
        [Event.executeActions false [aBefore]]
    ∧ (_migrate envRunFail ps0 false false).1.filter Event.isLog = []
    ∧ (_migrate envRunFail ps0 false false).2 =
        Except.error (Err.runnerError 2) :=
  runner_failure_aborts envRunFail ps0 false false "postgres://db" none
    [mA] [] mB (Err.runnerError 2) rfl rfl rfl rfl rfl
    (fun x hx => by rcases List.mem_singleton.mp hx with rfl; rfl) rfl

/-- C4: whatever the collaborators do, the runner invocations of a run
are exactly an in-order prefix of the batch returned by
`getMigrationsAfter` — applied one after the other in exactly the batch
order (trace order models completion order of the awaited calls), and no
migration outside the batch is ever applied. -/
theorem migrations_applied_in_order (env : Env) (ps : ParsedSettings)
    (sh f : Bool) (cs : String) (last : Option Migration)
    (batch : List Migration)
    (hsel : (if sh then ps.shadowConnectionString else ps.connectionString) =
      some cs)
    (hcs : cs.isEmpty = false)
    (h1 : env.getLastMigration = Except.ok last)
    (h2 : env.getMigrationsAfter last = Except.ok batch) :
    ∃ k, (_migrate env ps sh f).1.filter Event.isRun =
      (batch.take k).map
        (fun x => Event.runMigration x (if sh then "[shadow]" else "")) := by
  rw [migrate_not_falsy env ps sh f cs hsel hcs]
  cases hg : (decide (batch.length > 0) || f) with
  | false =>
      obtain ⟨hlen, hf⟩ : batch.length = 0 ∧ f = false := by
        simpa using hg
      have hbn : batch = [] := List.eq_nil_of_length_eq_zero hlen
      subst hbn
      subst hf
      rw [body_gate_off env ps sh _ last h1 h2]
      exact ⟨0, by simp [Event.isRun]⟩
  | true =>
      cases hb : env.executeActions sh ps.beforeAllMigrations with
      | error e =>
          rw [body_before_error env ps sh f _ last batch e h1 h2 hg hb]
          exact ⟨0, by simp [Event.isRun]⟩
      | ok u =>
          cases u
          rcases all_ok_or_split env batch with
            hall | ⟨pre, m, post, e, heq, hpre, hm⟩
          · cases ha : env.executeActions sh ps.afterAllMigrations with
            | error e =>
                rw [body_after_error env ps sh f _ last batch e h1 h2 hg hb
                  hall ha]
                refine ⟨batch.length, ?_⟩
                simp [Event.isRun, List.filter_append, filter_isRun_map]
            | ok v =>
                cases v
                rw [body_ok env ps sh f _ last batch h1 h2 hg hb hall ha]
                refine ⟨batch.length, ?_⟩
                simp [Event.isRun, List.filter_append, filter_isRun_map]
          · subst heq
            rw [body_run_error env ps sh f _ last pre post m e h1 h2 hb
              hpre hm]
            refine ⟨pre.length + 1, ?_⟩
            rw [take_append_cons]
            simp [Event.isRun, List.filter_append, filter_isRun_map]

/-- Witness for C4: the fully successful two-migration run applies
exactly the batch, in order. -/
theorem migrations_applied_in_order_witness :
    ∃ k, (_migrate envOk ps0 false false).1.filter Event.isRun =
      ([mA, mB].take k).map (fun x => Event.runMigration x "") :=
  migrations_applied_in_order envOk ps0 false false "postgres://db" none
    [mA, mB] rfl rfl rfl rfl

/-- C7: a run whose ledger state yields an empty batch, invoked with
`forceActions = false`, performs zero runner calls and zero hook calls:
its whole trace is the client acquire, the lock acquire, the two ledger
reads, the one status line, and the two releases, and it succeeds. -/
theorem second_run_no_side_effects (env : Env) (ps : ParsedSettings)
    (sh : Bool) (cs : String) (last : Option Migration)
    (hsel : (if sh then ps.shadowConnectionString else ps.connectionString) =
      some cs)
    (hcs : cs.isEmpty = false)
    (h1 : env.getLastMigration = Except.ok last)
    (h2 : env.getMigrationsAfter last = Except.ok []) :
    _migrate env ps sh false =
      ([Event.acquireClient cs, Event.acquireLock, Event.getLastMigration,
        Event.getMigrationsAfter,
        Event.logInfo (statusMessage (if sh then "[shadow]" else "") 0 last),
        Event.releaseLock, Event.releaseClient],
       Except.ok ()) := by
  rw [migrate_not_falsy env ps sh false cs hsel hcs,
    body_gate_off env ps sh _ last h1 h2]
  rfl

/-- Witness for C7: the up-to-date environment's run is exactly lock
acquire/release, ledger reads, and one status line. -/
theorem second_run_no_side_effects_witness :
    _migrate envEmpty ps0 false false =
      ([Event.acquireClient "postgres://db", Event.acquireLock,
        Event.getLastMigration, Event.getMigrationsAfter,
        Event.logInfo (statusMessage "" 0 (some mB)),
        Event.releaseLock, Event.releaseClient],
       Except.ok ()) :=
  second_run_no_side_effects envEmpty ps0 false "postgres://db" (some mB)
    rfl rfl rfl rfl

/-- C8: with a usable connection string, the run's trace is exactly the
client acquisition, then the lock acquisition, then the lock body's
events, then the lock release and the client release — and every event of
that lock body is migration work (ledger reads, hook phases, runner
invocations, the status line). So all migration work happens inside the
advisory-lock body, inside the client scope, never before the lock or
after its body. -/
theorem work_inside_lock_scope (env : Env) (ps : ParsedSettings)
    (sh f : Bool) (cs : String)
    (hsel : (if sh then ps.shadowConnectionString else ps.connectionString) =
      some cs)
    (hcs : cs.isEmpty = false) :
    (_migrate env ps sh f).1 =
      [Event.acquireClient cs, Event.acquireLock]
        ++ (migrationBody env ps sh f (if sh then "[shadow]" else "")).1
        ++ [Event.releaseLock, Event.releaseClient]
    ∧ ∀ e ∈ (migrationBody env ps sh f (if sh then "[shadow]" else "")).1,
        Event.isWork e = true := by
  refine ⟨?_, fun e he => body_events env ps sh f _ e he⟩
  rw [migrate_not_falsy env ps sh f cs hsel hcs]

/-- Witness for C8: the successful two-migration run has exactly the
client/lock bracketing with only work events between. -/
theorem work_inside_lock_scope_witness :
    (_migrate envOk ps0 false false).1 =
      [Event.acquireClient "postgres://db", Event.acquireLock]
        ++ (migrationBody envOk ps0 false false "").1
        ++ [Event.releaseLock, Event.releaseClient]
    ∧ ∀ e ∈ (migrationBody envOk ps0 false false "").1,
        Event.isWork e = true :=
  work_inside_lock_scope envOk ps0 false false "postgres://db" rfl rfl

/-- Counterexample to C1 as stated: a run whose before-phase hook fails
on a non-empty pending batch. The batch returned by `getMigrationsAfter`
is non-empty, yet the after-phase `executeActions` call (on the
configured after list, distinct from the before list) is never invoked,
refuting the stated "if and only if". -/
theorem hook_gating_cex :
    envBeforeFail.getMigrationsAfter none = Except.ok [mA, mB]
    ∧ ([mA, mB] : List Migration) ≠ []
    ∧ Event.executeActions false [aAfter] ∉
        (_migrate envBeforeFail ps0 false false).1 := by
  refine ⟨rfl, by simp, by decide⟩

/-- C1 amended: given successful ledger reads, the `executeActions`
invocations of a run are exactly: the before-phase call iff the batch is
non-empty or `forceActions` is set, followed by the after-phase call iff
additionally the before phase succeeded and every migration of the batch
applied cleanly. -/
theorem hook_gating_amended (env : Env) (ps : ParsedSettings) (sh f : Bool)
    (cs : String) (last : Option Migration) (batch : List Migration)
    (hsel : (if sh then ps.shadowConnectionString else ps.connectionString) =
      some cs)
    (hcs : cs.isEmpty = false)
    (h1 : env.getLastMigration = Except.ok last)
    (h2 : env.getMigrationsAfter last = Except.ok batch) :
    (_migrate env ps sh f).1.filter Event.isExec =
      (if (decide (batch.length > 0) || f) = true then
        [Event.executeActions sh ps.beforeAllMigrations]
       else [])
      ++ (if ((decide (batch.length > 0) || f)
             && resultOk (env.executeActions sh ps.beforeAllMigrations)
             && batch.all (fun m => resultOk (env.runCommittedMigration m)))
            = true then
        [Event.executeActions sh ps.afterAllMigrations]
       else []) := by
  rw [migrate_not_falsy env ps sh f cs hsel hcs]
  cases hg : (decide (batch.length > 0) || f) with
  | false =>
      obtain ⟨hlen, hf⟩ : batch.length = 0 ∧ f = false := by simpa using hg
      have hbn : batch = [] := List.eq_nil_of_length_eq_zero hlen
      subst hbn
      subst hf
      rw [body_gate_off env ps sh _ last h1 h2]
      simp [Event.isExec]
  | true =>
      cases hb : env.executeActions sh ps.beforeAllMigrations with
      | error e =>
          rw [body_before_error env ps sh f _ last batch e h1 h2 hg hb]
          simp [Event.isExec, resultOk]
      | ok u =>
          cases u
          rcases all_ok_or_split env batch with
            hall | ⟨pre, m, post, e, heq, hpre, hm⟩
          · have hallb :
                (batch.all fun m => resultOk (env.runCommittedMigration m)) =
                  true :=
              (all_resultOk env batch).mpr hall
            cases ha : env.executeActions sh ps.afterAllMigrations with
            | error e =>
                rw [body_after_error env ps sh f _ last batch e h1 h2 hg hb
                  hall ha, hallb]
                simp [Event.isExec, resultOk, filter_isExec_map,
                  List.filter_append]
            | ok v =>
                cases v
                rw [body_ok env ps sh f _ last batch h1 h2 hg hb hall ha,
                  hallb]
                simp [Event.isExec, Event.isLog, resultOk,
                  filter_isExec_map, List.filter_append]
          · subst heq
            rw [body_run_error env ps sh f _ last pre post m e h1 h2 hb
              hpre hm]
            simp [Event.isExec, resultOk, hm, filter_isExec_map,
              List.filter_append]

/-- Witness for the amended C1: the fully successful two-migration run
invokes the before phase then the after phase, exactly once each. -/
theorem hook_gating_amended_witness :
    (_migrate envOk ps0 false false).1.filter Event.isExec =
      (if (decide (([mA, mB] : List Migration).length > 0) || false) = true
       then [Event.executeActions false ps0.beforeAllMigrations] else [])
      ++ (if ((decide (([mA, mB] : List Migration).length > 0) || false)
             && resultOk (envOk.executeActions false ps0.beforeAllMigrations)
             && ([mA, mB] : List Migration).all
                  (fun m => resultOk (envOk.runCommittedMigration m))) = true
          then [Event.executeActions false ps0.afterAllMigrations] else []) :=
  hook_gating_amended envOk ps0 false false "postgres://db" none [mA, mB]
    rfl rfl rfl rfl

/-- Counterexample to C6 as stated: a run in which a migration fails
emits no status line at all, refuting "every run emits exactly one
informational status line". -/
theorem status_line_cex :
    (_migrate envRunFail ps0 false false).1.filter Event.isLog = []
    ∧ (_migrate envRunFail ps0 false false).1 ≠ [] := by
  refine ⟨rfl, by decide⟩

/-- C6 amended: every run that completes successfully emits exactly one
status line, whose text is the `graphile-migrate` tag — suffixed with
`[shadow]` when operating against the shadow target — and then
"N committed migrations executed" when the batch was non-empty,
"Already up to date" when the batch was empty and a last migration
exists, and "Up to date — no committed migrations to run" otherwise. -/
theorem status_line_on_success (env : Env) (ps : ParsedSettings)
    (sh f : Bool) (cs : String) (last : Option Migration)
    (batch : List Migration)
    (hsel : (if sh then ps.shadowConnectionString else ps.connectionString) =
      some cs)
    (hcs : cs.isEmpty = false)
    (h1 : env.getLastMigration = Except.ok last)
    (h2 : env.getMigrationsAfter last = Except.ok batch)
    (hres : (_migrate env ps sh f).2 = Except.ok ()) :
    (_migrate env ps sh f).1.filter Event.isLog =
      [Event.logInfo
        (("graphile-migrate" ++ (if sh then "[shadow]" else "") ++ ": ") ++
         (if batch.length > 0 then
            toString batch.length ++ " committed migrations executed"
          else if last.isSome then "Already up to date"
          else "Up to date — no committed migrations to run"))] := by
  rw [migrate_not_falsy env ps sh f cs hsel hcs] at hres ⊢
  cases hg : (decide (batch.length > 0) || f) with
  | false =>
      obtain ⟨hlen, hf⟩ : batch.length = 0 ∧ f = false := by simpa using hg
      have hbn : batch = [] := List.eq_nil_of_length_eq_zero hlen
      subst hbn
      subst hf
      rw [body_gate_off env ps sh _ last h1 h2]
      simp [Event.isLog, statusMessage_eq]
  | true =>
      cases hb : env.executeActions sh ps.beforeAllMigrations with
      | error e =>
          rw [body_before_error env ps sh f _ last batch e h1 h2 hg hb]
            at hres
          simp at hres
      | ok u =>
          cases u
          rcases all_ok_or_split env batch with
            hall | ⟨pre, m, post, e, heq, hpre, hm⟩
          · cases ha : env.executeActions sh ps.afterAllMigrations with
            | error e =>
                rw [body_after_error env ps sh f _ last batch e h1 h2 hg hb
                  hall ha] at hres
                simp at hres
            | ok v =>
                cases v
                rw [body_ok env ps sh f _ last batch h1 h2 hg hb hall ha]
                simp [Event.isLog, statusMessage_eq, filter_isLog_map,
                  List.filter_append]
          · subst heq
            rw [body_run_error env ps sh f _ last pre post m e h1 h2 hb
              hpre hm] at hres
            simp at hres

/-- Witness for the amended C6: the successful two-migration run logs the
single line "graphile-migrate: 2 committed migrations executed". -/
theorem status_line_on_success_witness :
    (_migrate envOk ps0 false false).1.filter Event.isLog =
      [Event.logInfo
        (("graphile-migrate" ++ "" ++ ": ") ++
         (if ([mA, mB] : List Migration).length > 0 then
            toString ([mA, mB] : List Migration).length ++
              " committed migrations executed"
          else if (none : Option Migration).isSome then "Already up to date"
          else "Up to date — no committed migrations to run"))] :=
  status_line_on_success envOk ps0 false false "postgres://db" none
    [mA, mB] rfl rfl rfl rfl rfl

/-- C10: the public entry point parses the settings and hands off: when
`parseSettings` succeeds, `migrate` is exactly `_migrate` on the parsed
settings with the same `shadow` and `forceActions`; when it fails, the
error propagates with nothing performed; and in both functions the
omitted `shadow` and `forceActions` arguments default to `false`. -/
theorem migrate_parses_then_migrates (env : Env) (s : Settings)
    (sh f : Bool) (p : ParsedSettings) :
    (env.parseSettings s sh = Except.ok p →
      migrate env s sh f = _migrate env p sh f)
    ∧ (∀ e, env.parseSettings s sh = Except.error e →
        migrate env s sh f = ([], Except.error e))
    ∧ migrate env s = migrate env s false false
    ∧ _migrate env p = _migrate env p false false := by
  refine ⟨?_, ?_, rfl, rfl⟩
  · intro h
    simp [migrate, h]
  · intro e h
    simp [migrate, h]

/-- Witness for C10: with a parser returning the standard settings, the
entry point equals the orchestrator on them. -/
theorem migrate_parses_then_migrates_witness :
    migrate envOk s0 true true = _migrate envOk ps0 true true :=
  (migrate_parses_then_migrates envOk s0 true true ps0).1 rfl
